import Mathlib

/-!
Shallow embedding of `main_wpp.py`, a WhatsApp Web bulk-message script.

External effects (browser navigation, waits, sleeps, logging, printing) are
modelled as an explicit event trace; exceptions are modelled with `Except`.
The outcome of each browser interaction (which of the waits inside a send
attempt fails, whether a blocking alert is present) is supplied by oracles,
so every theorem quantifies over all possible environment behaviours.
-/

/-- Errors that the Python runtime can raise inside the modelled code:
a WebDriver/navigation error, a wait timeout, or the absence of an alert. -/
inductive Err
  | webDriver
  | timeout
  | noAlert
deriving DecidableEq, Repr

/-- Observable side effects of the script, in execution order. -/
inductive Event
  | navigate (url : String)
  | waitTitle
  | waitBox
  | sendKeys (msg : String)
  | logInfo (msg : String)
  | logError (number : String)
  | logWarning (msg : String)
  | logDebug (msg : String)
  | sleep (seconds : ℚ)
  | switchAlert
  | acceptAlert
  | buildBrowser
  | quitBrowser
  | printOut (msg : String)
deriving DecidableEq, Repr

/-- Literal `DEFAULT_MESSAGE` from the source, verbatim. -/
def DEFAULT_MESSAGE : String :=
  "Olá, boa noite! Tudo bem?\n" ++
  "Me chamo Karina e falo do Recrutamento e Seleção do Grupo Segurpro.\n" ++
  "Estamos com oportunidades para atuar como Vigilante Intermitente em uma " ++
  "operação especial de grande porte em São Paulo nos dias 12, 13 e 14/09.\n" ++
  "Você possui interesse?\n" ++
  "Se tiver disponibilidade imediata e reciclagem em dia, pedimos que compareça " ++
  "com seus documentos em:\n" ++
  "RUA DOS ITALIANOS, 988 - BOM RETIRO\n" ++
  "Amanhã (11/09) ÀS 8H.\n" ++
  "Contamos com sua presença!\n"

/-- Record `RunStats`: the numbers sent successfully and the ones that failed. -/
structure RunStats where
  successful_numbers : List String
  failed_numbers : List String
deriving DecidableEq, Repr

/-- Property `RunStats.total`: `len(successful_numbers) + len(failed_numbers)`. -/
def RunStats.total (s : RunStats) : Nat :=
  s.successful_numbers.length + s.failed_numbers.length

/-- Python `str.isspace` restricted to the ASCII whitespace characters
(space, tab, newline, carriage return, vertical tab, form feed). -/
def pyIsSpace (c : Char) : Bool :=
  c = ' ' || c = '\t' || c = '\n' || c = '\r' ||
    c = Char.ofNat 11 || c = Char.ofNat 12

/-- Python `str.strip()`: remove leading and trailing whitespace. -/
def pyStrip (s : String) : String :=
  String.mk (((s.data.dropWhile pyIsSpace).reverse.dropWhile pyIsSpace).reverse)

/-- Python `str.lower()` (ASCII letters). -/
def pyLower (s : String) : String :=
  String.mk (s.data.map Char.toLower)

/-- Python `''.join(filter(str.isdigit, s))`: keep only the digit characters. -/
def digitsOf (s : String) : String :=
  String.mk (s.data.filter Char.isDigit)

/-- Function `normalize_phone` applied to a value already known to be a string:
the digit characters, or `None` when there are none. -/
def normalizeStr (s : String) : Option String :=
  if digitsOf s = "" then none else some (digitsOf s)

/-- A spreadsheet cell value as seen by `load_numbers`: `None`, a string,
or a non-string value whose `str()` rendering is recorded. -/
inductive CellValue
  | empty
  | str (s : String)
  | other (rendered : String)
deriving DecidableEq, Repr

/-- Function `normalize_phone(value)`: `None` for `None`, otherwise the digits of
`str(value)`, or `None` when no digit remains. -/
def normalize_phone : CellValue → Option String
  | CellValue.empty => none
  | CellValue.str s => normalizeStr s
  | CellValue.other s => normalizeStr s

/-- The header test in `load_numbers`:
`isinstance(cell.value, str) and cell.value.strip().lower() == "telefones"`. -/
def isHeaderCell : CellValue → Bool
  | CellValue.str s => pyLower (pyStrip s) = "telefones"
  | _ => false

/-- Python truthiness of the `--limit` argument (`int | None`):
`None` and `0` are falsy. -/
def limitTruthy : Option Int → Bool
  | none => false
  | some n => n ≠ 0

/-- The collection loop of `load_numbers`: walk the column cells, skip the
header marker and the values with no digits, append each normalized number,
and break once `limit and len(numbers) >= limit`. The `len` accumulator
carries the count collected so far. -/
def collectNumbers (limit : Option Int) : List CellValue → Nat → List String
  | [], _ => []
  | c :: rest, len =>
    if isHeaderCell c then collectNumbers limit rest len
    else
      match normalize_phone c with
      | none => collectNumbers limit rest len
      | some d =>
        if limitTruthy limit ∧ (limit.getD 0 ≤ (len + 1 : Int)) then [d]
        else d :: collectNumbers limit rest (len + 1)

/-- The de-duplication loop of `load_numbers`: keep each number the first
time it is seen, using the `seen` accumulator. -/
def orderedUniqueGo (seen : List String) : List String → List String
  | [] => []
  | n :: rest =>
    if n ∈ seen then orderedUniqueGo seen rest
    else n :: orderedUniqueGo (n :: seen) rest

/-- Step `Remove duplicados mantendo a ordem original` in `load_numbers`. -/
def orderedUnique (l : List String) : List String :=
  orderedUniqueGo [] l

/-- Function `load_numbers`, with the worksheet column abstracted as the list of its
cell values: collect normalized numbers (respecting the limit), then
de-duplicate keeping the original order. -/
def load_numbers (cells : List CellValue) (limit : Option Int) : List String :=
  orderedUnique (collectNumbers limit cells 0)

/-- Keeping the first occurrence of every element, stated the way the spec
describes it: keep the head and delete its later duplicates. -/
def dedupFirst : List String → List String
  | [] => []
  | x :: xs => x :: dedupFirst (xs.filter (fun y => y ≠ x))
termination_by l => l.length
decreasing_by
  simp only [List.length_cons]
  exact Nat.lt_succ_of_le (List.length_filter_le _ _)

/-- Function `load_message`: the default template when no file is given, otherwise
the file text with `str.strip()` applied. -/
def load_message (fileText : Option String) : String :=
  match fileText with
  | none => DEFAULT_MESSAGE
  | some text => pyStrip text

/-- Local `tempo_medio` in `build_report`:
`elapsed / stats.total if stats.total else 0`. -/
def tempo_medio (stats : RunStats) (elapsed : ℚ) : ℚ :=
  if stats.total ≠ 0 then elapsed / (stats.total : ℚ) else 0

/-- Two-digit zero padding used by `%H`, `%M`, `%S`. -/
def pad2 (n : Nat) : String :=
  if n < 10 then "0" ++ toString n else toString n

/-- Function `format_duration`: `time.strftime("%H:%M:%S", time.gmtime(seconds))`,
where `gmtime` floors the float to whole seconds and `%H` wraps at 24 h. -/
def format_duration (seconds : ℚ) : String :=
  pad2 (((Int.floor seconds).toNat / 3600) % 24) ++ ":" ++
    pad2 (((Int.floor seconds).toNat % 3600) / 60) ++ ":" ++
    pad2 ((Int.floor seconds).toNat % 60)

/-- Python `repr` of a list of strings, as produced by
`f"{stats.failed_numbers}"`. -/
def pyStrList (xs : List String) : String :=
  "[" ++ String.intercalate ", "
      (xs.map (fun s => String.singleton (Char.ofNat 39) ++ s ++
        String.singleton (Char.ofNat 39))) ++ "]"

/-- Function `build_report`: render the summary text from the stats and the elapsed
wall-clock duration. -/
def build_report (stats : RunStats) (elapsed : ℚ) : String :=
  "Total de números: " ++ toString stats.total ++ "\n" ++
  "Números enviados com sucesso: " ++ toString stats.successful_numbers.length ++ "\n" ++
  "Números enviados com erro: " ++ toString stats.failed_numbers.length ++ "\n" ++
  "Números com erro: " ++ pyStrList stats.failed_numbers ++ "\n" ++
  "Tempo de execução: " ++ format_duration elapsed ++ "\n" ++
  "Tempo médio por número: " ++ format_duration (tempo_medio stats elapsed) ++ "\n"

/-- The deep-link target built in `send_message` for one number. -/
def urlFor (number : String) : String :=
  "https://web.whatsapp.com/send/?phone=55" ++ number ++
    "&text&type=phone_number&app_absent=0"

/-- Which step of a send attempt the environment makes fail: none (`ok`),
`browser.get` (`failNav`), the title wait (`failTitle`), or the wait for
the compose element (`failBox`). -/
inductive SendOutcome
  | ok
  | failNav
  | failTitle
  | failBox
deriving DecidableEq, Repr

/-- The `try` body of `send_message`: navigate, wait for the title, wait
for the compose box, type the message, log success and return. The events
performed before the failing step are kept in the trace. -/
def sendBody (o : SendOutcome) (number message : String) :
    List Event × Except Err Unit :=
  match o with
  | SendOutcome.failNav => ([Event.navigate (urlFor number)], Except.error Err.webDriver)
  | SendOutcome.failTitle =>
    ([Event.navigate (urlFor number), Event.waitTitle], Except.error Err.timeout)
  | SendOutcome.failBox =>
    ([Event.navigate (urlFor number), Event.waitTitle, Event.waitBox],
      Except.error Err.timeout)
  | SendOutcome.ok =>
    ([Event.navigate (urlFor number), Event.waitTitle, Event.waitBox,
      Event.sendKeys message, Event.logInfo ("Mensagem enviada para " ++ number)],
      Except.ok ())

/-- The `try` body of `dismiss_alert`: switching to the alert raises when
no alert is present, otherwise the alert is accepted and a debug line
logged. -/
def dismissAlertBody (alertPresent : Bool) : List Event × Except Err Unit :=
  if alertPresent then
    ([Event.switchAlert, Event.acceptAlert, Event.logDebug "Alert aceito"],
      Except.ok ())
  else ([Event.switchAlert], Except.error Err.noAlert)

/-- A bare `try ... except Exception: pass` around an event-producing body. -/
def tryIgnore (body : List Event × Except Err Unit) : List Event :=
  body.1

/-- Function `dismiss_alert`: attempt to accept a blocking alert, ignoring its
absence. Never raises. -/
def dismiss_alert (alertPresent : Bool) : List Event :=
  tryIgnore (dismissAlertBody alertPresent)

/-- Function `send_message`: run the send attempt; on any exception log the error
and produce `False`; in the `finally` block always sleep for `delay`
seconds and then dismiss a possible alert. The result is `Except` to show
that no path raises to the caller. -/
def send_message (o : SendOutcome) (alertPresent : Bool)
    (number message : String) (delay : ℚ) : List Event × Except Err Bool :=
  match sendBody o number message with
  | (evs, Except.ok _) =>
    (evs ++ [Event.sleep delay] ++ dismiss_alert alertPresent, Except.ok true)
  | (evs, Except.error _) =>
    (evs ++ [Event.logError number] ++ [Event.sleep delay] ++
      dismiss_alert alertPresent, Except.ok false)

/-- The loop of `process_numbers`, with the index of the current send used
to consult the environment oracles; any exception escaping `send_message`
would propagate. -/
def processGo (oc : Nat → SendOutcome) (al : Nat → Bool)
    (message : String) (delay : ℚ) :
    Nat → List String → List Event × Except Err (List String × List String)
  | _, [] => ([], Except.ok ([], []))
  | i, n :: rest =>
    match send_message (oc i) (al i) n message delay with
    | (evs, Except.error e) => (evs, Except.error e)
    | (evs, Except.ok b) =>
      match processGo oc al message delay (i + 1) rest with
      | (evs2, Except.error e) => (evs ++ evs2, Except.error e)
      | (evs2, Except.ok (s, f)) =>
        (evs ++ evs2,
          Except.ok (if b then (n :: s, f) else (s, n :: f)))

/-- Function `process_numbers`: send to every number in order, splitting them into
the successful and failed lists. -/
def process_numbers (oc : Nat → SendOutcome) (al : Nat → Bool)
    (numbers : List String) (message : String) (delay : ℚ) :
    List Event × Except Err RunStats :=
  match processGo oc al message delay 0 numbers with
  | (evs, Except.error e) => (evs, Except.error e)
  | (evs, Except.ok (s, f)) => (evs, Except.ok (RunStats.mk s f))

/-- The loop of `send_report`: numbers that do not normalize are skipped
with a warning; the others get a send whose boolean result is discarded. -/
def sendReportGo (rc : Nat → SendOutcome) (ral : Nat → Bool)
    (message : String) (delay : ℚ) :
    Nat → List String → List Event × Except Err Unit
  | _, [] => ([], Except.ok ())
  | i, r :: rest =>
    match normalizeStr r with
    | none =>
      match sendReportGo rc ral message delay i rest with
      | (evs, res) =>
        (Event.logWarning ("Número de relatório inválido: " ++ r) :: evs, res)
    | some d =>
      match send_message (rc i) (ral i) d message delay with
      | (evs, Except.error e) => (evs, Except.error e)
      | (evs, Except.ok _) =>
        match sendReportGo rc ral message delay (i + 1) rest with
        | (evs2, res) => (evs ++ evs2, res)

/-- Function `send_report` over the configured report recipients. -/
def send_report (rc : Nat → SendOutcome) (ral : Nat → Bool)
    (recipients : List String) (message : String) (delay : ℚ) :
    List Event × Except Err Unit :=
  sendReportGo rc ral message delay 0 recipients

/-- The `try` body of `main` after the browser is built: process the
numbers, build and log the report, dispatch it to the report recipients,
then print it. -/
def mainTryBody (oc rc : Nat → SendOutcome) (al ral : Nat → Bool)
    (numbers : List String) (message : String) (delay : ℚ)
    (recipients : List String) (elapsed : ℚ) :
    List Event × Except Err RunStats :=
  match process_numbers oc al numbers message delay with
  | (pevs, Except.error e) => (pevs, Except.error e)
  | (pevs, Except.ok stats) =>
    match send_report rc ral recipients (build_report stats elapsed) delay with
    | (sevs, Except.error e) =>
      (pevs ++ [Event.logInfo ("Resumo:\n" ++ build_report stats elapsed)] ++ sevs,
        Except.error e)
    | (sevs, Except.ok _) =>
      (pevs ++ [Event.logInfo ("Resumo:\n" ++ build_report stats elapsed)] ++ sevs ++
        [Event.printOut (build_report stats elapsed)], Except.ok stats)

/-- The control skeleton of `main` from the point the numbers are loaded:
return 1 with only a warning when the list is empty; otherwise log the
count, build the browser, run the try body, and quit the browser in the
`finally` block whether the body returned or raised. -/
def mainWith (numbers : List String) (bodyEvs : List Event)
    (bodyRes : Except Err Unit) : List Event × Except Err Int :=
  if numbers.isEmpty then
    ([Event.logWarning "Nenhum número válido encontrado na planilha."],
      Except.ok 1)
  else
    ([Event.logInfo ("Total de números únicos a enviar: " ++ toString numbers.length),
      Event.buildBrowser] ++ bodyEvs ++ [Event.quitBrowser],
      match bodyRes with
      | Except.ok _ => Except.ok 0
      | Except.error e => Except.error e)

/-- Model of `main` with its external collaborators abstracted: the loaded numbers,
the loaded message, the CLI configuration and the environment oracles. -/
def mainModel (oc rc : Nat → SendOutcome) (al ral : Nat → Bool)
    (numbers : List String) (message : String) (delay : ℚ)
    (recipients : List String) (elapsed : ℚ) : List Event × Except Err Int :=
  mainWith numbers
    (mainTryBody oc rc al ral numbers message delay recipients elapsed).1
    ((mainTryBody oc rc al ral numbers message delay recipients elapsed).2.map
      (fun _ => ()))

/-- The `append` action of `argparse` for `--report-number`: the parsed
value starts from the default list and each occurrence on the command line
is appended to it. -/
def appendAction (dflt : List String) (occurrences : List String) : List String :=
  occurrences.foldl (fun acc v => acc ++ [v]) dflt

/-- The `report_numbers` attribute produced by `parse_args` from the
`--report-number` occurrences on the command line. -/
def parse_report_numbers (occurrences : List String) : List String :=
  appendAction ["11969257920", "11953075442"] occurrences

/-- The navigation targets requested in a trace, in order. -/
def navTargets (evs : List Event) : List String :=
  evs.filterMap (fun e =>
    match e with
    | Event.navigate u => some u
    | _ => none)

/-! ### Helper lemmas -/

theorem navTargets_append (a b : List Event) :
    navTargets (a ++ b) = navTargets a ++ navTargets b :=
  List.filterMap_append a b _

theorem send_message_snd (o : SendOutcome) (al : Bool) (n m : String) (δ : ℚ) :
    (send_message o al n m δ).2 = Except.ok (o == SendOutcome.ok) := by
  cases o <;> cases al <;> rfl

theorem send_message_nav (o : SendOutcome) (al : Bool) (n m : String) (δ : ℚ) :
    navTargets (send_message o al n m δ).1 = [urlFor n] := by
  cases o <;> cases al <;> rfl

theorem processGo_spec (oc : Nat → SendOutcome) (al : Nat → Bool)
    (message : String) (delay : ℚ) (numbers : List String) :
    ∀ i : Nat,
      ∃ s f evs, processGo oc al message delay i numbers = (evs, Except.ok (s, f)) ∧
        s.length + f.length = numbers.length ∧
        s.Sublist numbers ∧ f.Sublist numbers ∧
        (∀ x, s.count x + f.count x = numbers.count x) ∧
        navTargets evs = numbers.map urlFor := by
  induction numbers with
  | nil =>
    intro i
    exact ⟨[], [], [], rfl, rfl, List.Sublist.refl [], List.Sublist.refl [],
      fun x => rfl, rfl⟩
  | cons n rest ih =>
    intro i
    obtain ⟨s, f, evs, heq, hlen, hs, hf, hcount, hnav⟩ := ih (i + 1)
    rcases hsm : send_message (oc i) (al i) n message delay with ⟨sevs, sres⟩
    have hres : sres = Except.ok (oc i == SendOutcome.ok) := by
      have := send_message_snd (oc i) (al i) n message delay
      rw [hsm] at this
      exact this
    have hnv : navTargets sevs = [urlFor n] := by
      have := send_message_nav (oc i) (al i) n message delay
      rw [hsm] at this
      exact this
    subst hres
    refine ⟨if (oc i == SendOutcome.ok) then n :: s else s,
      if (oc i == SendOutcome.ok) then f else n :: f, sevs ++ evs, ?_, ?_, ?_, ?_, ?_, ?_⟩
    · simp only [processGo, hsm, heq]
      cases oc i == SendOutcome.ok <;> simp
    · cases oc i == SendOutcome.ok <;> simp [hlen] <;> omega
    · cases oc i == SendOutcome.ok
      · simpa using hs.cons n
      · simpa using hs.cons₂ n
    · cases oc i == SendOutcome.ok
      · simpa using hf.cons₂ n
      · simpa using hf.cons n
    · intro x
      have hx := hcount x
      cases oc i == SendOutcome.ok <;> simp [List.count_cons] <;> split <;> omega
    · rw [navTargets_append, hnv, hnav]
      rfl

/-- Claim C1: `process_numbers` drives one send per number, in input order
(the navigation targets of its trace are exactly the deep links of the
input numbers, in order), never raises, and the resulting `RunStats`
partitions the input: both lists are sublists of the input (so processing
order is preserved), every number occurs in the two lists jointly exactly
as often as in the input, and the lengths add up to the input length. -/
theorem process_numbers_partitions_input (oc : Nat → SendOutcome) (al : Nat → Bool)
    (numbers : List String) (message : String) (delay : ℚ) :
    ∃ stats : RunStats,
      (process_numbers oc al numbers message delay).2 = Except.ok stats ∧
      stats.successful_numbers.length + stats.failed_numbers.length = numbers.length ∧
      stats.successful_numbers.Sublist numbers ∧
      stats.failed_numbers.Sublist numbers ∧
      (∀ x, stats.successful_numbers.count x + stats.failed_numbers.count x
        = numbers.count x) ∧
      navTargets (process_numbers oc al numbers message delay).1
        = numbers.map urlFor := by
  obtain ⟨s, f, evs, heq, hlen, hs, hf, hcount, hnav⟩ :=
    processGo_spec oc al message delay numbers 0
  refine ⟨RunStats.mk s f, ?_, hlen, hs, hf, hcount, ?_⟩
  · simp [process_numbers, heq]
  · simp [process_numbers, heq, hnav]

theorem appendAction_eq (dflt occurrences : List String) :
    appendAction dflt occurrences = dflt ++ occurrences := by
  induction occurrences generalizing dflt with
  | nil => simp [appendAction]
  | cons v rest ih =>
    simp only [appendAction, List.foldl_cons] at *
    rw [ih (dflt ++ [v])]
    simp

/-- Claim C10: The `append` action of `--report-number` extends the default
list, so the parsed recipient list always begins with the two built-in
default numbers and the user-supplied occurrences follow them; the
defaults are never replaced and always remain recipients. -/
theorem report_defaults_always_present (occurrences : List String) :
    parse_report_numbers occurrences
        = ["11969257920", "11953075442"] ++ occurrences ∧
      (parse_report_numbers occurrences).take 2
        = ["11969257920", "11953075442"] ∧
      "11969257920" ∈ parse_report_numbers occurrences ∧
      "11953075442" ∈ parse_report_numbers occurrences := by
  have h := appendAction_eq ["11969257920", "11953075442"] occurrences
  refine ⟨h, ?_, ?_, ?_⟩ <;> simp [parse_report_numbers, h]

/-- Claim C4: `build_report` computes `total` as the sum of the two list
lengths and the average duration per number as `elapsed / total`, guarded
to `0` when `total = 0`; with 3 successes, 2 failures and 100 s elapsed it
reports total 5 and an average of 20 s per number. -/
theorem build_report_average (stats : RunStats) (elapsed : ℚ) :
    stats.total = stats.successful_numbers.length + stats.failed_numbers.length ∧
    (stats.total = 0 → tempo_medio stats elapsed = 0) ∧
    (stats.total ≠ 0 →
      tempo_medio stats elapsed = elapsed / (stats.total : ℚ) ∧
      tempo_medio stats elapsed * (stats.total : ℚ) = elapsed) ∧
    (RunStats.mk ["a", "b", "c"] ["d", "e"]).total = 5 ∧
    tempo_medio (RunStats.mk ["a", "b", "c"] ["d", "e"]) 100 = 20 := by
  refine ⟨rfl, ?_, ?_, by decide, by norm_num [tempo_medio, RunStats.total]⟩
  · intro h
    simp [tempo_medio, h]
  · intro h
    have h0 : ((stats.total : ℚ)) ≠ 0 := by
      exact_mod_cast h
    constructor
    · simp [tempo_medio, h]
    · simp only [tempo_medio, h, if_true, ne_eq, not_false_eq_true]
      field_simp

theorem mem_dedupFirst : ∀ (l : List String) (y : String),
    y ∈ dedupFirst l ↔ y ∈ l := by
  intro l
  induction l using dedupFirst.induct with
  | case1 => intro y; simp [dedupFirst]
  | case2 x xs ih =>
    intro y
    simp only [dedupFirst, List.mem_cons, ih, List.mem_filter]
    constructor
    · rintro (rfl | ⟨h, _⟩)
      · exact Or.inl rfl
      · exact Or.inr h
    · rintro (rfl | h)
      · exact Or.inl rfl
      · by_cases hyx : y = x
        · exact Or.inl hyx
        · exact Or.inr ⟨h, by simp [hyx]⟩

theorem dedupFirst_nodup : ∀ l : List String, (dedupFirst l).Nodup := by
  intro l
  induction l using dedupFirst.induct with
  | case1 => simp [dedupFirst]
  | case2 x xs ih =>
    simp only [dedupFirst, List.nodup_cons]
    refine ⟨?_, ih⟩
    intro hx
    rw [mem_dedupFirst, List.mem_filter] at hx
    simp at hx

theorem dedupFirst_cons (x : String) (xs : List String) :
    dedupFirst (x :: xs) = x :: dedupFirst (xs.filter (fun y => y ≠ x)) := by
  simp [dedupFirst]

theorem orderedUniqueGo_eq (l : List String) :
    ∀ seen, orderedUniqueGo seen l
      = dedupFirst (l.filter (fun y => decide (y ∉ seen))) := by
  induction l with
  | nil => intro seen; simp [dedupFirst, orderedUniqueGo]
  | cons x xs ih =>
    intro seen
    by_cases hx : x ∈ seen
    · rw [orderedUniqueGo, if_pos hx]
      have hfc : (x :: xs).filter (fun y => decide (y ∉ seen))
          = xs.filter (fun y => decide (y ∉ seen)) := by
        simp [List.filter_cons, hx]
      rw [hfc]
      exact ih seen
    · rw [orderedUniqueGo, if_neg hx]
      have hfc : (x :: xs).filter (fun y => decide (y ∉ seen))
          = x :: xs.filter (fun y => decide (y ∉ seen)) := by
        simp [List.filter_cons, hx]
      rw [hfc, dedupFirst_cons, ih (x :: seen), List.filter_filter]
      have hpq : List.filter (fun y => decide (y ∉ x :: seen)) xs
          = List.filter (fun a => decide (a ≠ x) && decide (a ∉ seen)) xs := by
        refine List.filter_congr ?_
        intro a _
        by_cases h1 : a = x <;> by_cases h2 : a ∈ seen <;> simp [h1, h2]
      rw [hpq]

/-- Claim C6: `load_numbers` de-duplicates keeping first occurrences: the
result is exactly the collected column entries with every later duplicate
deleted (so each distinct normalized number appears once, at the position
of its first occurrence), and on the spec's example the result is
`["11999999999", "11988888888"]` in that order. -/
theorem load_numbers_dedup_first_occurrence (cells : List CellValue)
    (limit : Option Int) :
    load_numbers cells limit = dedupFirst (collectNumbers limit cells 0) ∧
    (load_numbers cells limit).Nodup ∧
    (∀ x, x ∈ collectNumbers limit cells 0 →
      (load_numbers cells limit).count x = 1) ∧
    load_numbers [CellValue.str "11999999999", CellValue.str "11999999999",
        CellValue.str "11988888888"] none
      = ["11999999999", "11988888888"] := by
  have h0 : (collectNumbers limit cells 0).filter
      (fun y => decide (y ∉ ([] : List String))) = collectNumbers limit cells 0 := by
    simp
  have h1 : load_numbers cells limit = dedupFirst (collectNumbers limit cells 0) := by
    rw [load_numbers, orderedUnique, orderedUniqueGo_eq _ [], h0]
  refine ⟨h1, ?_, ?_, by decide⟩
  · rw [h1]; exact dedupFirst_nodup _
  · intro x hx
    rw [h1]
    exact List.count_eq_one_of_mem (dedupFirst_nodup _) ((mem_dedupFirst _ _).mpr hx)

theorem collect_some_zero : ∀ (cells : List CellValue) (len : Nat),
    collectNumbers (some 0) cells len = collectNumbers none cells len := by
  intro cells
  induction cells with
  | nil => intro len; rfl
  | cons c rest ih =>
    intro len
    by_cases hh : isHeaderCell c
    · simp [collectNumbers, hh, ih]
    · cases hnp : normalize_phone c with
      | none => simp [collectNumbers, hh, hnp, ih]
      | some d => simp [collectNumbers, hh, hnp, limitTruthy, ih]

theorem collect_none_eq : ∀ (cells : List CellValue) (len : Nat),
    collectNumbers none cells len
      = cells.filterMap
          (fun c => if isHeaderCell c then none else normalize_phone c) := by
  intro cells
  induction cells with
  | nil => intro len; rfl
  | cons c rest ih =>
    intro len
    by_cases hh : isHeaderCell c
    · simp [collectNumbers, hh, List.filterMap_cons, ih]
    · cases hnp : normalize_phone c with
      | none => simp [collectNumbers, hh, hnp, List.filterMap_cons, ih]
      | some d =>
        simp [collectNumbers, hh, hnp, limitTruthy, List.filterMap_cons, ih]

theorem collect_length_le (n : Int) (hn : 0 < n) :
    ∀ (cells : List CellValue) (len : Nat), (len : Int) < n →
      ((collectNumbers (some n) cells len).length : Int) ≤ n - len := by
  intro cells
  induction cells with
  | nil =>
    intro len h
    simp only [collectNumbers, List.length_nil, Nat.cast_zero]
    omega
  | cons c rest ih =>
    intro len h
    by_cases hh : isHeaderCell c
    · simpa [collectNumbers, hh] using ih len h
    · cases hnp : normalize_phone c with
      | none => simpa [collectNumbers, hh, hnp] using ih len h
      | some d =>
        by_cases hc : n ≤ (len : Int) + 1
        · have : collectNumbers (some n) (c :: rest) len = [d] := by
            simp [collectNumbers, hh, hnp, limitTruthy, hn.ne', hc]
          rw [this]
          simp only [List.length_cons, List.length_nil, Nat.cast_one]
          omega
        · have hlt : ((len + 1 : Nat) : Int) < n := by push_cast; omega
          have : collectNumbers (some n) (c :: rest) len
              = d :: collectNumbers (some n) rest (len + 1) := by
            simp [collectNumbers, hh, hnp, limitTruthy, hc]
          rw [this]
          have hrec := ih (len + 1) hlt
          simp only [List.length_cons]
          push_cast at hrec ⊢
          omega

theorem orderedUniqueGo_length_le :
    ∀ (l seen : List String), (orderedUniqueGo seen l).length ≤ l.length := by
  intro l
  induction l with
  | nil => intro seen; simp [orderedUniqueGo]
  | cons x xs ih =>
    intro seen
    by_cases hx : x ∈ seen
    · rw [orderedUniqueGo, if_pos hx]
      exact Nat.le_succ_of_le (ih seen)
    · rw [orderedUniqueGo, if_neg hx]
      simpa using Nat.succ_le_succ (ih (x :: seen))

/-- Claim C9: A positive `--limit` caps the collected column entries
(duplicates included) before de-duplication, so the deduplicated result
has length at most the limit but may hold strictly fewer distinct numbers
even when more distinct valid numbers occur later (witnessed by the
`["1","1","2"]` column with limit 2); a limit of `0` behaves exactly like
`None`, and with `None` every valid non-header entry of the column is
collected, with no cap. -/
theorem limit_cap_before_dedup (cells : List CellValue) (n : Int) (hn : 0 < n) :
    ((collectNumbers (some n) cells 0).length : Int) ≤ n ∧
    ((load_numbers cells (some n)).length : Int) ≤ n ∧
    (∀ cs : List CellValue, load_numbers cs (some 0) = load_numbers cs none) ∧
    (∀ cs : List CellValue, collectNumbers none cs 0
      = cs.filterMap
          (fun c => if isHeaderCell c then none else normalize_phone c)) ∧
    collectNumbers (some 2)
        [CellValue.str "1", CellValue.str "1", CellValue.str "2"] 0 = ["1", "1"] ∧
    load_numbers [CellValue.str "1", CellValue.str "1", CellValue.str "2"]
        (some 2) = ["1"] ∧
    load_numbers [CellValue.str "1", CellValue.str "1", CellValue.str "2"]
        none = ["1", "2"] := by
  have h1 : ((collectNumbers (some n) cells 0).length : Int) ≤ n := by
    have := collect_length_le n hn cells 0 (by exact_mod_cast hn)
    simpa using this
  refine ⟨h1, ?_, ?_, fun cs => collect_none_eq cs 0, by decide, by decide, by decide⟩
  · have h2 := orderedUniqueGo_length_le (collectNumbers (some n) cells 0) []
    have : ((load_numbers cells (some n)).length : Int)
        ≤ ((collectNumbers (some n) cells 0).length : Int) := by
      exact_mod_cast h2
    omega
  · intro cs
    simp [load_numbers, collect_some_zero]

theorem limit_cap_witness :
    ((collectNumbers (some 1) [] 0).length : Int) ≤ 1 :=
  (limit_cap_before_dedup [] 1 (by decide)).1

theorem load_numbers_dedup_witness :
    (load_numbers [CellValue.str "12", CellValue.str "12"] none).count "12" = 1 :=
  (load_numbers_dedup_first_occurrence [CellValue.str "12", CellValue.str "12"]
    none).2.2.1 "12" (by decide)

theorem send_message_eq (o : SendOutcome) (al : Bool) (n m : String) (δ : ℚ) :
    send_message o al n m δ
      = ((sendBody o n m).1
          ++ (if o = SendOutcome.ok then [] else [Event.logError n])
          ++ [Event.sleep δ] ++ dismiss_alert al,
        Except.ok (o == SendOutcome.ok)) := by
  cases o <;> rfl

theorem sendBody_noquit (o : SendOutcome) (n m : String) :
    Event.quitBrowser ∉ (sendBody o n m).1 := by
  cases o <;> simp [sendBody]

theorem dismiss_alert_noquit (al : Bool) :
    Event.quitBrowser ∉ dismiss_alert al := by
  cases al <;> simp [dismiss_alert, dismissAlertBody, tryIgnore]

theorem send_message_noquit (o : SendOutcome) (al : Bool) (n m : String) (δ : ℚ) :
    Event.quitBrowser ∉ (send_message o al n m δ).1 := by
  cases o <;> cases al <;>
    simp [send_message, sendBody, dismiss_alert, dismissAlertBody, tryIgnore]

theorem send_message_noprint (o : SendOutcome) (al : Bool) (n m : String)
    (δ : ℚ) (msg : String) :
    Event.printOut msg ∉ (send_message o al n m δ).1 := by
  cases o <;> cases al <;>
    simp [send_message, sendBody, dismiss_alert, dismissAlertBody, tryIgnore]

theorem processGo_noquit (oc : Nat → SendOutcome) (al : Nat → Bool)
    (message : String) (delay : ℚ) :
    ∀ (numbers : List String) (i : Nat),
      Event.quitBrowser ∉ (processGo oc al message delay i numbers).1 := by
  intro numbers
  induction numbers with
  | nil => intro i; simp [processGo]
  | cons n rest ih =>
    intro i
    rcases hsm : send_message (oc i) (al i) n message delay with ⟨sevs, sres⟩
    have hres : sres = Except.ok (oc i == SendOutcome.ok) := by
      have := send_message_snd (oc i) (al i) n message delay
      rw [hsm] at this
      exact this
    subst hres
    have hsnq : Event.quitBrowser ∉ sevs := by
      have := send_message_noquit (oc i) (al i) n message delay
      rw [hsm] at this
      exact this
    rcases hpg : processGo oc al message delay (i + 1) rest with ⟨evs2, r2⟩
    have hnq2 : Event.quitBrowser ∉ evs2 := by
      have := ih (i + 1)
      rw [hpg] at this
      exact this
    cases r2 <;> simp [processGo, hsm, hpg, List.mem_append] <;>
      exact ⟨hsnq, hnq2⟩

theorem sendReportGo_spec (rc : Nat → SendOutcome) (ral : Nat → Bool)
    (message : String) (delay : ℚ) :
    ∀ (rest : List String) (i : Nat),
      ∃ evs, sendReportGo rc ral message delay i rest = (evs, Except.ok ()) ∧
        navTargets evs = (rest.filterMap normalizeStr).map urlFor ∧
        (∀ r ∈ rest, normalizeStr r = none →
          Event.logWarning ("Número de relatório inválido: " ++ r) ∈ evs) ∧
        Event.quitBrowser ∉ evs ∧
        (∀ msg, Event.printOut msg ∉ evs) := by
  intro rest
  induction rest with
  | nil =>
    intro i
    exact ⟨[], rfl, rfl, by simp, by simp, by simp⟩
  | cons r rest' ih =>
    intro i
    cases hnr : normalizeStr r with
    | none =>
      obtain ⟨evs, heq, hnav, hwarn, hnq, hnp⟩ := ih i
      refine ⟨Event.logWarning ("Número de relatório inválido: " ++ r) :: evs,
        ?_, ?_, ?_, ?_, ?_⟩
      · simp [sendReportGo, hnr, heq]
      · simp [navTargets, List.filterMap_cons, hnr] at hnav ⊢
        exact hnav
      · intro r2 hmem hnone
        rw [List.mem_cons] at hmem
        rcases hmem with rfl | hmem2
        · exact List.mem_cons_self _ _
        · exact List.mem_cons_of_mem _ (hwarn r2 hmem2 hnone)
      · simp only [List.mem_cons]
        rintro (h | h)
        · cases h
        · exact hnq h
      · intro msg
        simp only [List.mem_cons]
        rintro (h | h)
        · cases h
        · exact hnp msg h
    | some d =>
      obtain ⟨evs, heq, hnav, hwarn, hnq, hnp⟩ := ih (i + 1)
      rcases hsm : send_message (rc i) (ral i) d message delay with ⟨sevs, sres⟩
      have hres : sres = Except.ok (rc i == SendOutcome.ok) := by
        have := send_message_snd (rc i) (ral i) d message delay
        rw [hsm] at this
        exact this
      subst hres
      have hsnav : navTargets sevs = [urlFor d] := by
        have := send_message_nav (rc i) (ral i) d message delay
        rw [hsm] at this
        exact this
      have hsnq : Event.quitBrowser ∉ sevs := by
        have := send_message_noquit (rc i) (ral i) d message delay
        rw [hsm] at this
        exact this
      have hsnp : ∀ msg, Event.printOut msg ∉ sevs := by
        intro msg
        have := send_message_noprint (rc i) (ral i) d message delay msg
        rw [hsm] at this
        exact this
      refine ⟨sevs ++ evs, ?_, ?_, ?_, ?_, ?_⟩
      · simp [sendReportGo, hnr, hsm, heq]
      · rw [navTargets_append, hsnav, List.filterMap_cons, hnr, List.map_cons, hnav]
        rfl
      · intro r2 hmem hnone
        rw [List.mem_cons] at hmem
        rcases hmem with rfl | hmem2
        · rw [hnr] at hnone
          cases hnone
        · exact List.mem_append_right _ (hwarn r2 hmem2 hnone)
      · simp only [List.mem_append]
        rintro (h | h)
        · exact hsnq h
        · exact hnq h
      · intro msg
        simp only [List.mem_append]
        rintro (h | h)
        · exact hsnp msg h
        · exact hnp msg h

theorem mainTryBody_spec (oc rc : Nat → SendOutcome) (al ral : Nat → Bool)
    (numbers : List String) (message : String) (delay : ℚ)
    (recipients : List String) (elapsed : ℚ) :
    ∃ stats evs,
      (process_numbers oc al numbers message delay).2 = Except.ok stats ∧
      mainTryBody oc rc al ral numbers message delay recipients elapsed
        = (evs, Except.ok stats) ∧
      Event.printOut (build_report stats elapsed) ∈ evs ∧
      Event.quitBrowser ∉ evs := by
  obtain ⟨s, f, pevs, heq, _, _, _, _, _⟩ :=
    processGo_spec oc al message delay numbers 0
  have hp : process_numbers oc al numbers message delay
      = (pevs, Except.ok (RunStats.mk s f)) := by
    simp [process_numbers, heq]
  have hpnq : Event.quitBrowser ∉ pevs := by
    have := processGo_noquit oc al message delay numbers 0
    rw [heq] at this
    exact this
  obtain ⟨sevs, hs, _, _, hsnq, _⟩ :=
    sendReportGo_spec rc ral (build_report (RunStats.mk s f) elapsed) delay
      recipients 0
  refine ⟨RunStats.mk s f,
    pevs ++ [Event.logInfo ("Resumo:\n" ++ build_report (RunStats.mk s f) elapsed)]
      ++ sevs ++ [Event.printOut (build_report (RunStats.mk s f) elapsed)],
    ?_, ?_, ?_, ?_⟩
  · rw [hp]
  · simp [mainTryBody, hp, send_report, hs]
  · simp
  · simp only [List.mem_append, List.mem_singleton]
    rintro (((h | h) | h) | h)
    · exact hpnq h
    · simp at h
    · exact hsnq h
    · simp at h

theorem head_dropWhile_not (p : Char → Bool) :
    ∀ (l : List Char) (c : Char), (l.dropWhile p).head? = some c → p c = false := by
  intro l
  induction l with
  | nil => intro c h; simp [List.dropWhile] at h
  | cons x xs ih =>
    intro c h
    rw [List.dropWhile_cons] at h
    by_cases hx : p x
    · rw [if_pos hx] at h
      exact ih c h
    · rw [if_neg hx] at h
      simp only [List.head?_cons, Option.some.injEq] at h
      subst h
      simpa using hx

theorem strip_spec (p : Char → Bool) (l : List Char) :
    l = l.takeWhile p ++ ((l.dropWhile p).reverse.dropWhile p).reverse
      ++ ((l.dropWhile p).reverse.takeWhile p).reverse ∧
    (∀ c, (((l.dropWhile p).reverse.dropWhile p).reverse).head? = some c →
      p c = false) ∧
    (∀ c, (((l.dropWhile p).reverse.dropWhile p).reverse).reverse.head? = some c →
      p c = false) := by
  have hsplit : l.dropWhile p
      = ((l.dropWhile p).reverse.dropWhile p).reverse
        ++ ((l.dropWhile p).reverse.takeWhile p).reverse := by
    have h2 := List.takeWhile_append_dropWhile p (l.dropWhile p).reverse
    have h3 := congrArg List.reverse h2
    rw [List.reverse_append, List.reverse_reverse] at h3
    exact h3.symm
  refine ⟨?_, ?_, ?_⟩
  · conv_lhs => rw [← List.takeWhile_append_dropWhile p l]
    rw [List.append_assoc, ← hsplit]
  · intro c hc
    rcases hc2 : ((l.dropWhile p).reverse.dropWhile p).reverse with _ | ⟨c0, cs⟩
    · rw [hc2] at hc
      simp at hc
    · rw [hc2] at hc hsplit
      simp only [List.head?_cons, Option.some.injEq] at hc
      subst hc
      refine head_dropWhile_not p l c0 ?_
      rw [hsplit]
      rfl
  · intro c hc
    rw [List.reverse_reverse] at hc
    exact head_dropWhile_not p (l.dropWhile p).reverse c hc

/-- Claim C8 counterexample: The claim says `load_message` preserves leading
whitespace verbatim, but the code applies Python `str.strip()`, which also
removes leading whitespace: for a message file containing `" ola"` the
result is `"ola"`, not `" ola"`. -/
theorem load_message_keeps_leading_ws_counterexample :
    load_message (some " ola") = "ola" ∧ (" ola" : String) ≠ "ola" := by
  exact ⟨rfl, by decide⟩

/-- Claim C8, amended: `load_message` with no file returns `DEFAULT_MESSAGE`
unchanged; with a file it returns the file text with leading **and**
trailing whitespace removed and every other character preserved verbatim:
the original text splits as an all-whitespace prefix, the result, and an
all-whitespace suffix, and the result neither starts nor ends with a
whitespace character. -/
theorem load_message_strips_both_ends :
    load_message none = DEFAULT_MESSAGE ∧
    ∀ t : String, ∃ pre suf : List Char,
      t.data = pre ++ (load_message (some t)).data ++ suf ∧
      (∀ c ∈ pre, pyIsSpace c = true) ∧
      (∀ c ∈ suf, pyIsSpace c = true) ∧
      (∀ c, (load_message (some t)).data.head? = some c → pyIsSpace c = false) ∧
      (∀ c, (load_message (some t)).data.reverse.head? = some c →
        pyIsSpace c = false) := by
  refine ⟨rfl, ?_⟩
  intro t
  obtain ⟨h1, h2, h3⟩ := strip_spec pyIsSpace t.data
  exact ⟨t.data.takeWhile pyIsSpace,
    ((t.data.dropWhile pyIsSpace).reverse.takeWhile pyIsSpace).reverse,
    h1, fun c hc => List.mem_takeWhile_imp hc,
    fun c hc => List.mem_takeWhile_imp (List.mem_reverse.mp hc), h2, h3⟩

theorem load_message_strips_witness :
    ∃ pre suf : List Char,
      (" ola" : String).data = pre ++ (load_message (some " ola")).data ++ suf ∧
      (∀ c ∈ pre, pyIsSpace c = true) ∧
      (∀ c ∈ suf, pyIsSpace c = true) ∧
      (∀ c, (load_message (some " ola")).data.head? = some c →
        pyIsSpace c = false) ∧
      (∀ c, (load_message (some " ola")).data.reverse.head? = some c →
        pyIsSpace c = false) :=
  load_message_strips_both_ends.2 " ola"

theorem build_report_average_witness :
    tempo_medio (RunStats.mk ["a", "b", "c"] ["d", "e"]) 100
        * ((RunStats.mk ["a", "b", "c"] ["d", "e"]).total : ℚ) = 100 :=
  ((build_report_average (RunStats.mk ["a", "b", "c"] ["d", "e"]) 100).2.2.1
    (by decide)).2

/-- Claim C3: `send_message` never raises to its caller: for every failure
mode of the environment it returns `Except.ok` of a boolean that is `true`
exactly when the attempt succeeded; every failing attempt logs an error
for the number; and the trace always ends with the post-attempt sleep
followed by the alert dismissal, whose own body raises when no alert is
present but is swallowed (`dismiss_alert` yields just the switch attempt). -/
theorem send_message_total_boolean (o : SendOutcome) (al : Bool)
    (number message : String) (delay : ℚ) (hdel : 0 ≤ delay) :
    (∃ evs b, send_message o al number message delay = (evs, Except.ok b) ∧
      (b = true ↔ o = SendOutcome.ok) ∧
      (o ≠ SendOutcome.ok → Event.logError number ∈ evs) ∧
      ∃ pre, evs = pre ++ [Event.sleep delay] ++ dismiss_alert al) ∧
    (dismissAlertBody false).2 = Except.error Err.noAlert ∧
    dismiss_alert false = [Event.switchAlert] := by
  refine ⟨?_, rfl, rfl⟩
  refine ⟨_, _, send_message_eq o al number message delay, by simp, ?_, ?_⟩
  · intro h
    simp [h]
  · exact ⟨_, rfl⟩

theorem send_message_total_witness :
    ∃ evs b, send_message SendOutcome.failBox false "11" "x" 5
        = (evs, Except.ok b) ∧
      (b = true ↔ SendOutcome.failBox = SendOutcome.ok) ∧
      (SendOutcome.failBox ≠ SendOutcome.ok → Event.logError "11" ∈ evs) ∧
      ∃ pre, evs = pre ++ [Event.sleep 5] ++ dismiss_alert false :=
  (send_message_total_boolean SendOutcome.failBox false "11" "x" 5
    (by norm_num)).1

/-- Claim C7: `send_report` skips every recipient that does not normalize to
a non-empty digit string, logging a warning and attempting no navigation
for it (the navigation targets are exactly the deep links of the
normalizable recipients); and report dispatch never modifies the finalized
run statistics: the stats produced by `main`'s try body are exactly the
ones returned by `process_numbers`, and the printed report is built from
those very stats. -/
theorem send_report_skips_invalid_preserves_stats
    (rc : Nat → SendOutcome) (ral : Nat → Bool)
    (recipients : List String) (message : String) (delay : ℚ) :
    (∃ evs, send_report rc ral recipients message delay
        = (evs, Except.ok ()) ∧
      navTargets evs = (recipients.filterMap normalizeStr).map urlFor ∧
      ∀ r ∈ recipients, normalizeStr r = none →
        Event.logWarning ("Número de relatório inválido: " ++ r) ∈ evs) ∧
    (∀ (oc : Nat → SendOutcome) (al : Nat → Bool) (numbers : List String)
        (msg2 : String) (delay2 elapsed : ℚ),
      ∃ stats evs2,
        (process_numbers oc al numbers msg2 delay2).2 = Except.ok stats ∧
        mainTryBody oc rc al ral numbers msg2 delay2 recipients elapsed
          = (evs2, Except.ok stats) ∧
        Event.printOut (build_report stats elapsed) ∈ evs2) := by
  constructor
  · obtain ⟨evs, heq, hnav, hwarn, _, _⟩ :=
      sendReportGo_spec rc ral message delay recipients 0
    exact ⟨evs, heq, hnav, hwarn⟩
  · intro oc al numbers msg2 delay2 elapsed
    obtain ⟨stats, evs2, h1, h2, h3, _⟩ :=
      mainTryBody_spec oc rc al ral numbers msg2 delay2 recipients elapsed
    exact ⟨stats, evs2, h1, h2, h3⟩

theorem send_report_skips_invalid_witness :
    ∃ evs, send_report (fun _ => SendOutcome.ok) (fun _ => false)
        ["abc"] "m" 5 = (evs, Except.ok ()) ∧
      Event.logWarning ("Número de relatório inválido: " ++ "abc") ∈ evs := by
  obtain ⟨evs, heq, hnav, hwarn⟩ :=
    (send_report_skips_invalid_preserves_stats (fun _ => SendOutcome.ok)
      (fun _ => false) ["abc"] "m" 5).1
  exact ⟨evs, heq, hwarn "abc" (by simp) (by decide)⟩

/-- Claim C2: Once the browser session is created (the non-empty-numbers
branch of `main`), the trace contains exactly one `browser.quit`, for
every body trace that does not itself quit and for every body result —
normal completion or an escaping exception — because the quit sits in the
`finally` block; and the actual try body of `main` (processing, report
build, report dispatch, print) never quits the browser itself. -/
theorem browser_session_released_once :
    (∀ (numbers : List String) (bodyEvs : List Event) (bodyRes : Except Err Unit),
      numbers ≠ [] → Event.quitBrowser ∉ bodyEvs →
      (mainWith numbers bodyEvs bodyRes).1.count Event.quitBrowser = 1) ∧
    (∀ (oc rc : Nat → SendOutcome) (al ral : Nat → Bool) (numbers : List String)
        (message : String) (delay : ℚ) (recipients : List String) (elapsed : ℚ),
      Event.quitBrowser ∉
        (mainTryBody oc rc al ral numbers message delay recipients elapsed).1) := by
  constructor
  · intro numbers bodyEvs bodyRes hne hnq
    cases numbers with
    | nil => exact absurd rfl hne
    | cons a as =>
      simp only [mainWith, List.isEmpty_cons, Bool.false_eq_true, if_false]
      simp [List.count_append, List.count_cons, List.count_eq_zero.mpr hnq]
  · intro oc rc al ral numbers message delay recipients elapsed
    obtain ⟨stats, evs, _, h2, _, h4⟩ :=
      mainTryBody_spec oc rc al ral numbers message delay recipients elapsed
    rw [h2]
    exact h4

theorem browser_session_released_once_witness :
    (mainWith ["11"] [] (Except.error Err.timeout)).1.count Event.quitBrowser
      = 1 :=
  browser_session_released_once.1 ["11"] [] (Except.error Err.timeout)
    (by decide) (by simp)

/-- Claim C5: When the loaded number list is empty, `main` returns exit code
1 and its trace is exactly the warning log — no browser is built and no
report is built, dispatched or printed; when the list is non-empty the run
completes with exit code 0, after building the browser. -/
theorem main_exit_codes (oc rc : Nat → SendOutcome) (al ral : Nat → Bool)
    (numbers : List String) (message : String) (delay : ℚ)
    (recipients : List String) (elapsed : ℚ) :
    (numbers = [] →
      mainModel oc rc al ral numbers message delay recipients elapsed
        = ([Event.logWarning "Nenhum número válido encontrado na planilha."],
            Except.ok 1)) ∧
    (numbers ≠ [] →
      (mainModel oc rc al ral numbers message delay recipients elapsed).2
        = Except.ok 0 ∧
      Event.buildBrowser
        ∈ (mainModel oc rc al ral numbers message delay recipients elapsed).1) := by
  constructor
  · rintro rfl
    rfl
  · intro hne
    obtain ⟨stats, evs, _, h2, _, _⟩ :=
      mainTryBody_spec oc rc al ral numbers message delay recipients elapsed
    cases numbers with
    | nil => exact absurd rfl hne
    | cons a as =>
      constructor
      · simp [mainModel, mainWith, h2, Except.map]
      · simp [mainModel, mainWith, h2]

theorem main_exit_codes_witness :
    mainModel (fun _ => SendOutcome.ok) (fun _ => SendOutcome.ok)
        (fun _ => false) (fun _ => false) [] "m" 5 [] 0
      = ([Event.logWarning "Nenhum número válido encontrado na planilha."],
          Except.ok 1) ∧
    (mainModel (fun _ => SendOutcome.ok) (fun _ => SendOutcome.ok)
        (fun _ => false) (fun _ => false) ["11"] "m" 5 [] 0).2 = Except.ok 0 :=
  ⟨(main_exit_codes (fun _ => SendOutcome.ok) (fun _ => SendOutcome.ok)
      (fun _ => false) (fun _ => false) [] "m" 5 [] 0).1 rfl,
   ((main_exit_codes (fun _ => SendOutcome.ok) (fun _ => SendOutcome.ok)
      (fun _ => false) (fun _ => false) ["11"] "m" 5 [] 0).2 (by decide)).1⟩
